import Mathlib

/-!
# Verification of the ibtrader order-execution and position-reconciliation engine

Shallow embedding of the core of the `ibtrader` repository:

* `src/position_manager.py` — position/order ledgers, `process_fill`,
  `process_exercise`, `find_matching_position`;
* `src/trading_app.py` — the `orderStatus` gateway callback (ledger part);
* `src/execution_strategies/execution_base.py`, `limit_orders.py` — the
  execution-strategy base class and the Dynamic-Limit strategy;
* `src/execution_strategies/dynamic_limit.py` — the legacy Dynamic-Limit
  strategy that `src/execution_strategies/__init__.py` actually imports.

Modelling conventions:

* Python numbers (ints and floats) are modelled as `ℚ`; machine floating
  point rounding is not modelled.
* Python dicts keyed by UUID strings or integer ids are modelled as
  association lists keyed by `ℕ`; `uuid4()` generation is determinized as a
  `nextId` counter carried in the state (the code only needs freshness).
* Timestamp fields, logging and file persistence (`_save_positions`,
  `_save_orders`) have no effect on the values the claims are about and are
  omitted.  Locks are omitted: each embedded operation models one whole
  locked critical section.
-/

namespace IBTrader

/-- Keys of the ledgers: stands for the UUID strings (orders/positions) and
the integer broker order ids of the source. -/
abbrev Key := Nat

/-- First-match lookup in an association list, as Python dict `get`. -/
def lookup {α : Type} (l : List (Key × α)) (k : Key) : Option α :=
  match l with
  | [] => none
  | (k', v) :: t => if k' = k then some v else lookup t k

/-- Dict assignment `d[k] = v`: replace the first binding of `k` in place, or
append a new binding. -/
def setKey {α : Type} (l : List (Key × α)) (k : Key) (v : α) : List (Key × α) :=
  match l with
  | [] => [(k, v)]
  | (k', v') :: t => if k' = k then (k, v) :: t else (k', v') :: setKey t k v

/-- Order side, the `action` field (`'BUY'` / `'SELL'`). -/
inductive Action
  | BUY
  | SELL
deriving DecidableEq, Repr

/-- A position record, as built by `PositionManager._update_position_internal`
(`src/position_manager.py:156`).  `last_updated` (a timestamp) is omitted. -/
structure Position where
  symbol : String
  quantity : ℚ
  avg_price : ℚ
  strategy_id : String
  instrument_type : String
  strike : Option ℚ := none
  expiry : Option String := none
  option_type : Option String := none
  pair_id : Option String := none
deriving DecidableEq, Repr

/-- An order record, as built by `PositionManager.create_order_info`
(`src/position_manager.py:94`) and by the synthetic orders of
`process_exercise`.  Timestamp, `execution_type`, `ib_order_id` and the
`synthetic_*` marker fields carry no behaviour and are omitted. -/
structure Order where
  symbol : String
  action : Action
  quantity : ℚ
  position_id : Key
  strategy_id : String
  instrument_type : String
  strike : Option ℚ := none
  expiry : Option String := none
  option_type : Option String := none
  pair_id : Option String := none
  last_processed_fill : ℚ := 0
  fill_processed : Bool := false
deriving DecidableEq, Repr

/-- The `PositionManager` state: the two ledgers, plus the determinized
`uuid4()` supply. -/
structure PMState where
  orders : List (Key × Order) := []
  positions : List (Key × Position) := []
  nextId : Key := 0
deriving DecidableEq, Repr

/-- `current_position.get('quantity', 0)` (`src/position_manager.py:247,260`):
positions absent from the ledger read as quantity `0`. -/
def posQuantity (st : PMState) (pid : Key) : ℚ :=
  match lookup st.positions pid with
  | some p => p.quantity
  | none => 0

/-- `current_position.get('avg_price', 0)` (`src/position_manager.py:247,265`). -/
def posAvgPrice (st : PMState) (pid : Key) : ℚ :=
  match lookup st.positions pid with
  | some p => p.avg_price
  | none => 0

/-- The signed ledger delta of a fill:
`filled_qty = new_fill_quantity if order['action'] == 'BUY' else -new_fill_quantity`
(`src/position_manager.py:259`). -/
def deltaOf (a : Action) (new_fill_quantity : ℚ) : ℚ :=
  match a with
  | .BUY => new_fill_quantity
  | .SELL => -new_fill_quantity

/-- Python truthiness of `kwargs.get('pair_id')`: present and non-empty. -/
def pairIdTruthy (pair_id : Option String) : Bool :=
  match pair_id with
  | some s => decide (s ≠ "")
  | none => false

/-- The position record written by `_update_position_internal`
(`src/position_manager.py:156-188`): base fields always, option fields only
for `OPTION`, expiry only for `FUTURE`, `pair_id` only when truthy. -/
def builtPosition (symbol : String) (quantity avg_price : ℚ)
    (instrument_type strategy_id : String)
    (strike : Option ℚ) (expiry option_type pair_id : Option String) : Position :=
  let base : Position :=
    { symbol := symbol, quantity := quantity, avg_price := avg_price,
      strategy_id := strategy_id, instrument_type := instrument_type }
  let pos :=
    if instrument_type = "OPTION" then
      { base with strike := strike, expiry := expiry, option_type := option_type }
    else if instrument_type = "FUTURE" then
      { base with expiry := expiry }
    else base
  if pairIdTruthy pair_id then { pos with pair_id := pair_id } else pos

/-- `_update_position_internal`: write the rebuilt position record at
`position_id` (persistence to file omitted). -/
def updatePositionInternal (st : PMState) (symbol : String) (quantity avg_price : ℚ)
    (instrument_type strategy_id : String) (position_id : Key)
    (strike : Option ℚ) (expiry option_type pair_id : Option String) : PMState :=
  let pos := builtPosition symbol quantity avg_price instrument_type strategy_id
    strike expiry option_type pair_id
  { st with positions := setKey st.positions position_id pos }

/-- `PositionManager._process_fill_internal` (`src/position_manager.py:238-289`).
Unknown `order_id` is logged and dropped: the state is returned unchanged. -/
def processFillInternal (st : PMState) (order_id : Key)
    (new_fill_quantity fill_price : ℚ) : PMState :=
  match lookup st.orders order_id with
  | none => st
  | some order =>
    let position_id := order.position_id
    let current_qty := posQuantity st position_id
    let current_avg := posAvgPrice st position_id
    let filled_qty := deltaOf order.action new_fill_quantity
    let new_quantity := current_qty + filled_qty
    let new_avg_price :=
      if new_quantity ≠ 0 then
        if current_qty * new_quantity > 0 then
          if |new_quantity| > |current_qty| then
            (|current_qty| * current_avg + |filled_qty| * fill_price) / |new_quantity|
          else current_avg
        else fill_price
      else 0
    updatePositionInternal st order.symbol new_quantity new_avg_price
      order.instrument_type order.strategy_id position_id
      order.strike order.expiry order.option_type order.pair_id

/-- `PositionManager.process_fill` (`src/position_manager.py:229`): takes the
ledger lock and runs `_process_fill_internal`. -/
def processFill (st : PMState) (order_id : Key)
    (new_fill_quantity fill_price : ℚ) : PMState :=
  processFillInternal st order_id new_fill_quantity fill_price

/-- "current_quantity and new_quantity have the same sign" in the words of
claim C1: both strictly positive or both strictly negative. -/
def sameSign (a b : ℚ) : Bool :=
  (decide (0 < a) && decide (0 < b)) || (decide (a < 0) && decide (b < 0))

/-- The average-price selection rule exactly as the spec/claim C1 words it,
as a function of the current position, the signed delta and the fill price. -/
def specAvgPrice (current_quantity current_avg delta fill_price : ℚ) : ℚ :=
  let new_quantity := current_quantity + delta
  if new_quantity = 0 then 0
  else if sameSign current_quantity new_quantity = true ∧
      |new_quantity| > |current_quantity| then
    (|current_quantity| * current_avg + |delta| * fill_price) / |new_quantity|
  else if sameSign current_quantity new_quantity = true then current_avg
  else fill_price

/-- The position-ledger invariant of the spec: a flat position has zero
average price. -/
def invariantAll (st : PMState) : Prop :=
  ∀ pid pos, lookup st.positions pid = some pos → pos.quantity = 0 → pos.avg_price = 0

/-- One call to `process_fill`: order id, fill quantity, fill price. -/
structure Fill where
  oid : Key
  qty : ℚ
  price : ℚ
deriving DecidableEq, Repr

/-- Apply a sequence of fills through `process_fill`. -/
def applyFills (st : PMState) : List Fill → PMState
  | [] => st
  | f :: fs => applyFills (processFill st f.oid f.qty f.price) fs

/-- `PositionManager.update_order` as called from `orderStatus`
(`src/trading_app.py:216-219`): merge `last_processed_fill` and
`fill_processed` into an existing order record.  In the callback path the
order was just looked up, so the create-on-absent branch of `update_order`
is unreachable; absent orders are left unchanged here. -/
def updateOrderFill (st : PMState) (order_id : Key) (lpf : ℚ) (fp : Bool) : PMState :=
  match lookup st.orders order_id with
  | some o =>
    let o' : Order := { o with last_processed_fill := lpf, fill_processed := fp }
    { st with orders := setKey st.orders order_id o' }
  | none => st

/-- The `TradingApp` state seen by the `orderStatus` callback: the broker-id
to internal-id translation table `ib_to_uuid_map` and the position manager. -/
structure AppState where
  ibMap : List (Key × Key) := []
  pm : PMState := {}
deriving DecidableEq, Repr

/-- The ledger part of `TradingApp.orderStatus` (`src/trading_app.py:179-219`).
The callback first translates the broker order id through `ib_to_uuid_map`
(unknown ids are logged and dropped), then applies the cumulative-fill delta
`filled - last_processed_fill` when positive, and records the new
`last_processed_fill`.  The call into the transient execution strategy
(`process_order_status`) mutates no ledger state and is modelled separately
by the execution-strategy embeddings below. -/
def orderStatusHandler (st : AppState) (orderId : Key)
    (filled remaining lastFillPrice : ℚ) : AppState :=
  match lookup st.ibMap orderId with
  | none => st
  | some uuid_order_id =>
    match lookup st.pm.orders uuid_order_id with
    | none => st
    | some order =>
      if filled > 0 then
        let new_fill_amount := filled - order.last_processed_fill
        if new_fill_amount > 0 then
          let pm1 := processFill st.pm uuid_order_id new_fill_amount lastFillPrice
          let pm2 := updateOrderFill pm1 uuid_order_id filled (decide (remaining = 0))
          { st with pm := pm2 }
        else st
      else st

/-- The per-position identity match of
`PositionManager._find_matching_position_internal`
(`src/position_manager.py:59-80`): symbol, strategy and instrument type must
agree; options additionally match strike/expiry/option type, futures match
expiry. -/
def matchesPosition (p : Position) (symbol instrument_type strategy_id : String)
    (strike : Option ℚ) (expiry option_type : Option String) : Bool :=
  if p.symbol = symbol ∧ p.strategy_id = strategy_id ∧
      p.instrument_type = instrument_type then
    if instrument_type = "OPTION" then
      decide (p.strike = strike ∧ p.expiry = expiry ∧ p.option_type = option_type)
    else if instrument_type = "FUTURE" then
      decide (p.expiry = expiry)
    else true
  else false

/-- `_find_matching_position_internal`: first position (in dict insertion
order) matching the identity. -/
def findMatchingPositionInternal (positions : List (Key × Position))
    (symbol instrument_type strategy_id : String)
    (strike : Option ℚ) (expiry option_type : Option String) : Option Key :=
  match positions with
  | [] => none
  | (pid, p) :: t =>
    if matchesPosition p symbol instrument_type strategy_id strike expiry option_type then
      some pid
    else findMatchingPositionInternal t symbol instrument_type strategy_id
      strike expiry option_type

/-- Python `str.upper()`, character by character. -/
def pyUpper (s : String) : String :=
  ⟨s.data.map Char.toUpper⟩

/-- `is_call = option_type.upper() == 'CALL'` (`src/position_manager.py:310`). -/
def isCallType (option_type : String) : Bool :=
  pyUpper option_type == "CALL"

/-- `is_itm = (close_price > strike) if is_call else (close_price < strike)`
(`src/position_manager.py:311`). -/
def itmB (is_call : Bool) (close_price strike : ℚ) : Bool :=
  if is_call then decide (close_price > strike) else decide (close_price < strike)

/-- The synthetic option-close order dict built by `process_exercise` in both
the ITM (`src/position_manager.py:317-329`) and OTM (lines 380-392) branches:
close the position (`BUY` when short, else `SELL`) for `|quantity|`
contracts. -/
def synthCloseOrder (symbol : String) (position : Position) (strike : ℚ)
    (expiry option_type : String) (pos_id : Key) : Order :=
  { symbol := symbol,
    action := if position.quantity < 0 then Action.BUY else Action.SELL,
    quantity := |position.quantity|,
    position_id := pos_id,
    strategy_id := position.strategy_id,
    instrument_type := "OPTION",
    strike := some strike,
    expiry := some expiry,
    option_type := some option_type }

/-- The synthetic stock order dict built by the ITM branch of
`process_exercise` (`src/position_manager.py:346-362`):
`is_exercise = quantity > 0`, `action = BUY iff (is_call == is_exercise)`,
`quantity = |quantity| * 100`. -/
def synthStockOrder (symbol : String) (position : Position) (is_call : Bool)
    (stock_position_id : Key) : Order :=
  { symbol := symbol,
    action := if is_call = decide (position.quantity > 0) then Action.BUY else Action.SELL,
    quantity := |position.quantity| * 100,
    position_id := stock_position_id,
    strategy_id := position.strategy_id,
    instrument_type := "STOCK" }

/-- The ledger after `process_exercise` has allocated and stored the
synthetic option-close order under the freshly minted id `st.nextId`
(both branches do this identically). -/
def exerciseCloseInserted (st : PMState) (symbol : String) (position : Position)
    (strike : ℚ) (expiry option_type : String) (pos_id : Key) : PMState :=
  { st with orders := setKey st.orders st.nextId
              (synthCloseOrder symbol position strike expiry option_type pos_id),
            nextId := st.nextId + 1 }

/-- The ledger after `process_exercise` has run the synthetic option-close
order through `_process_fill_internal` at premium 0. -/
def exerciseAfterClose (st : PMState) (symbol : String) (position : Position)
    (strike : ℚ) (expiry option_type : String) (pos_id : Key) : PMState :=
  processFillInternal
    (exerciseCloseInserted st symbol position strike expiry option_type pos_id)
    st.nextId |position.quantity| 0

/-- `PositionManager.process_exercise` (`src/position_manager.py:295-411`).
`none` models the re-raised exception when the position lacks
`strike`/`option_type`/`expiry`.  UUID generation is determinized through
`nextId`, consumed in source order: option order id, then (if needed) the
fresh stock position id, then the stock order id. -/
def processExercise (st : PMState) (symbol : String) (position : Position)
    (close_price : ℚ) (pos_id : Key) : Option PMState :=
  match position.strike, position.option_type, position.expiry with
  | some strike, some option_type, some expiry =>
    let is_call := isCallType option_type
    if itmB is_call close_price strike then
      -- Exercise (positive position) or assignment (negative position):
      -- close the option position with a synthetic order at premium 0.
      let st2 := exerciseAfterClose st symbol position strike expiry option_type pos_id
      -- Resolve the stock position by identity match, or mint a fresh id.
      let foundStock := findMatchingPositionInternal st2.positions symbol "STOCK"
        position.strategy_id none none none
      let stock_position_id := foundStock.getD st2.nextId
      let st3 : PMState :=
        match foundStock with
        | some _ => st2
        | none => { st2 with nextId := st2.nextId + 1 }
      let stock_qty := |position.quantity| * 100
      let synthetic_stock_order_id := st3.nextId
      let st4 : PMState :=
        { st3 with orders := setKey st3.orders synthetic_stock_order_id
                    (synthStockOrder symbol position is_call stock_position_id),
                   nextId := st3.nextId + 1 }
      -- Exercise/assignment occurs at the strike price.
      some (processFillInternal st4 synthetic_stock_order_id stock_qty strike)
    else
      -- Out of the money: expire worthless.
      some (exerciseAfterClose st symbol position strike expiry option_type pos_id)
  | _, _, _ => none

/-! ## Execution strategies

Two Dynamic-Limit implementations exist in the repository:

* `src/execution_strategies/limit_orders.py` together with the base class in
  `src/execution_strategies/execution_base.py` (definitions without a
  `legacy` prefix below), and
* a stale, self-contained `src/execution_strategies/dynamic_limit.py`
  (definitions named `legacy...` below), which is the module that
  `src/execution_strategies/__init__.py` actually imports for the
  `DYNAMIC_LIMIT` execution kind.
-/

/-- Python `round()` on an exact rational: round half to even. -/
def pyRound (x : ℚ) : ℤ :=
  let f := ⌊x⌋
  let r := x - f
  if r < 1/2 then f
  else if 1/2 < r then f + 1
  else if f % 2 = 0 then f else f + 1

/-- The limit-price computation of
`DynamicLimitOrderStrategy.create_order` in
`src/execution_strategies/limit_orders.py:21-73`, as a function of the
market data for the instrument.  `none` for the tick size or the price
models the `return None` ("no order") paths. -/
def dlCreateOrderPrice (action : Action) (bid ask last tick_size : Option ℚ) : Option ℚ :=
  match tick_size with
  | none => none
  | some tick =>
    match action with
    | .BUY =>
      if bid.isNone ∨ bid.getD 0 ≤ 0 ∨ ask.isNone ∨ ask.getD 0 ≤ 0 then
        match last with
        | none => none
        | some price => if price ≤ 0 then none else some price
      else
        let b := bid.getD 0
        let a := ask.getD 0
        let mid_price := (b + a) / 2
        let price := (pyRound (mid_price / tick) : ℚ) * tick
        -- If rounded mid price is above ask, use bid instead.
        some (if price ≥ a then b else price)
    | .SELL =>
      if bid.isNone ∨ bid.getD 0 ≤ 0 ∨ ask.isNone ∨ ask.getD 0 ≤ 0 then
        match last with
        | none => none
        | some price => if price ≤ 0 then none else some price
      else
        let b := bid.getD 0
        let a := ask.getD 0
        let mid_price := (b + a) / 2
        let price := (pyRound (mid_price / tick) : ℚ) * tick
        -- If rounded mid price is below bid, use ask instead.
        some (if price ≤ b then a else price)

/-- The limit-price computation of the legacy
`DynamicLimitOrderStrategy.create_order` in
`src/execution_strategies/dynamic_limit.py:108-129`: the bid (BUY) or ask
(SELL) with dict default `0`; an order object is always returned. -/
def legacyDlCreateOrderPrice (action : Action) (bid ask : Option ℚ) : ℚ :=
  match action with
  | .BUY => bid.getD 0
  | .SELL => ask.getD 0

/-- The mutable broker-order payload tracked in `self.current_order`
(`execution_base.py`): the fields `modify_order` and the conversion touch. -/
structure OrderPayload where
  orderType : String
  tif : String
  lmtPrice : ℚ
deriving DecidableEq, Repr

/-- A dict argument to `modify_order`: only the present keys override. -/
structure ModArgs where
  orderType : Option String := none
  tif : Option String := none
  lmtPrice : Option ℚ := none
deriving DecidableEq, Repr

/-- The transient state of the `limit_orders.py` Dynamic-Limit strategy:
fields of `BaseExecutionStrategy.__init__` (`execution_base.py:16-27`) and of
`DynamicLimitOrderStrategy.__init__` (`limit_orders.py:12-19`).
`hasOrderId` / `hasIbOrderId` model the truthiness of `self.order_id` /
`self.ib_order_id`; `max_attempts = 3`,
`partial_fill_timeout_multiplier = 1.5` and
`significant_fill_threshold = 0.25` are inlined. -/
structure DLState where
  status : String := "PENDING"
  hasOrderId : Bool := false
  hasIbOrderId : Bool := false
  timeout_seconds : ℚ := 60
  converted_to_market : Bool := false
  attempts : Nat := 0
  filled_quantity : ℚ := 0
  signal_quantity : ℚ := 0
  hasPartFill : Bool := false
  action : Action := .BUY
  current_order : Option OrderPayload := none
deriving DecidableEq, Repr

/-- Gateway calls emitted by the strategy: `submitModify p` stands for
`placeOrder(ib_order_id, contract, modified_order)` with payload `p`. -/
inductive DLEffect
  | submitModify (payload : OrderPayload)
deriving DecidableEq, Repr

/-- `BaseExecutionStrategy.modify_order` (`execution_base.py:92-111`):
guarded on a broker id, ACTIVE status and an existing `current_order`;
copies the current payload, overrides with the given modifications, stores
it and re-submits under the same broker id. -/
def modifyOrder (s : DLState) (m : ModArgs) : DLState × List DLEffect :=
  if s.hasIbOrderId = false ∨ s.status ≠ "ACTIVE" ∨ s.current_order = none then (s, [])
  else
    match s.current_order with
    | none => (s, [])
    | some o =>
      let o' : OrderPayload :=
        { orderType := m.orderType.getD o.orderType,
          tif := m.tif.getD o.tif,
          lmtPrice := m.lmtPrice.getD o.lmtPrice }
      ({ s with current_order := some o' }, [DLEffect.submitModify o'])

/-- The re-pricing tail of `check_and_update` (`limit_orders.py:110-158`):
skipped when already converted, out of attempts, significantly filled
(≥ 25 %), or market data/tick size is unavailable; otherwise re-derives the
tick-aligned mid price and modifies the live limit price when it changed. -/
def checkReprice (s : DLState) (bid ask tick_size : Option ℚ) : DLState × List DLEffect :=
  if s.converted_to_market = false ∧ s.attempts < 3 then
    if s.hasPartFill = true ∧ s.filled_quantity / s.signal_quantity ≥ 1/4 then (s, [])
    else
      match tick_size with
      | none => (s, [])
      | some tick =>
        match bid, ask with
        | some b, some a =>
          let mid_price := (b + a) / 2
          let p0 := (pyRound (mid_price / tick) : ℚ) * tick
          let new_price :=
            match s.action with
            | .BUY => if p0 ≥ a then b else p0
            | .SELL => if p0 ≤ b then a else p0
          match s.current_order with
          | none => (s, [])
          | some o =>
            if new_price ≠ o.lmtPrice then
              let r := modifyOrder s { lmtPrice := some new_price }
              ({ r.1 with attempts := s.attempts + 1 }, r.2)
            else (s, [])
        | _, _ => (s, [])
  else (s, [])

/-- `DynamicLimitOrderStrategy.check_and_update`
(`limit_orders.py:75-158`).  `elapsed` is the wall-clock seconds since
`start_time`, so `timeout_exceeded t` is `elapsed > t`.  The effective
conversion timeout is `timeout_seconds` without a partial fill and
`timeout_seconds * 1.5` with one; conversion is the in-place
`modify_order({orderType MKT, tif IOC, lmtPrice 0})` guarded by the one-shot
`converted_to_market` flag. -/
def checkAndUpdate (s : DLState) (elapsed : ℚ) (bid ask tick_size : Option ℚ) :
    DLState × List DLEffect :=
  if s.status ≠ "ACTIVE" ∨ s.hasOrderId = false then (s, [])
  else if s.hasPartFill then
    if s.converted_to_market = false ∧ elapsed > s.timeout_seconds * (3/2) then
      let r := modifyOrder s { orderType := some "MKT", tif := some "IOC", lmtPrice := some 0 }
      ({ r.1 with converted_to_market := true }, r.2)
    else checkReprice s bid ask tick_size
  else
    if s.converted_to_market = false ∧ elapsed > s.timeout_seconds then
      let r := modifyOrder s { orderType := some "MKT", tif := some "IOC", lmtPrice := some 0 }
      ({ r.1 with converted_to_market := true }, r.2)
    else checkReprice s bid ask tick_size

/-- `BaseExecutionStrategy.is_complete` (`execution_base.py:113-115`):
`self.status in ["COMPLETED", "CANCELLED"]`. -/
def execBaseIsComplete (status : String) : Bool :=
  status == "COMPLETED" || status == "CANCELLED"

/-- The legacy `BaseExecutionStrategy.is_complete`
(`dynamic_limit.py:60-62`): `self.status == "COMPLETED"` only. -/
def legacyIsComplete (status : String) : Bool :=
  status == "COMPLETED"

/-- The transient state of the legacy `dynamic_limit.py` strategy (its own
`BaseExecutionStrategy.__init__` at lines 16-22 plus
`DynamicLimitOrderStrategy.__init__` at lines 101-106).  The
`last_price_update` timestamp and the externally stored limit price live in
the environment and are passed per call. -/
structure LegacyDLState where
  status : String := "PENDING"
  hasOrderId : Bool := false
  timeout_seconds : ℚ := 60
  attempts : Nat := 0
  action : Action := .BUY
deriving DecidableEq, Repr

/-- Gateway calls emitted by the legacy strategy: `cancelOrd` is
`cancelOrder(order_id)`; `placeMkt`/`placeLmt` are `placeOrder` of a freshly
built market (tif DAY) or limit (tif DAY) order. -/
inductive LegacyEffect
  | cancelOrd
  | placeMkt (tif : String) (quantity : ℚ)
  | placeLmt (tif : String) (quantity price : ℚ)
deriving DecidableEq, Repr

/-- The legacy `DynamicLimitOrderStrategy.process_order_status`
(`dynamic_limit.py:131-196`).  On `"Filled"` the strategy completes.  Past
the base timeout it cancels the live order and places a brand-new DAY
market order for the remaining quantity through the legacy `place_order`
(`dynamic_limit.py:64-72`, guarded on a truthy `next_order_id`, modelled by
`nextIdAvail`) — with no one-shot flag, so this repeats on every later
callback.  Otherwise, at most every 10 s and 3 attempts, it cancels and
re-places a new DAY limit order at the current bid/ask (dict default 0).
`secsSinceLastPriceUpdate` is `none` when `last_price_update` is `None`;
`storedLimitPrice` is `execution_module.orders.get(order_id, {}).get('limit_price')`. -/
def legacyProcessOrderStatus (s : LegacyDLState) (status : String)
    (filled remaining avgFillPrice : ℚ) (elapsed : ℚ)
    (secsSinceLastPriceUpdate : Option ℚ) (bid ask : Option ℚ)
    (storedLimitPrice : Option ℚ) (nextIdAvail : Bool) :
    LegacyDLState × List LegacyEffect :=
  if status = "Filled" then ({ s with status := "COMPLETED" }, [])
  else if elapsed > s.timeout_seconds then
    let cancelFx : List LegacyEffect :=
      if s.hasOrderId = true ∧ s.status = "ACTIVE" then [LegacyEffect.cancelOrd] else []
    if nextIdAvail then
      ({ s with hasOrderId := true, status := "ACTIVE" },
        cancelFx ++ [LegacyEffect.placeMkt "DAY" remaining])
    else (s, cancelFx)
  else
    match secsSinceLastPriceUpdate with
    | none => (s, [])
    | some age =>
      if age > 10 ∧ s.attempts < 3 then
        let new_price := match s.action with | .BUY => bid.getD 0 | .SELL => ask.getD 0
        if some new_price ≠ storedLimitPrice then
          let cancelFx : List LegacyEffect :=
            if s.hasOrderId = true ∧ s.status = "ACTIVE" then [LegacyEffect.cancelOrd] else []
          if nextIdAvail then
            ({ s with hasOrderId := true, status := "ACTIVE", attempts := s.attempts + 1 },
              cancelFx ++ [LegacyEffect.placeLmt "DAY" remaining new_price])
          else ({ s with attempts := s.attempts + 1 }, cancelFx)
        else (s, [])
      else (s, [])

/-- The order-submission state shared through `trading_app`:
`next_order_id` (broker order number, `None` before `nextValidId`),
`ib_to_uuid_map`, and the determinized UUID supply of
`position_manager._generate_order_id`. -/
structure GatewayApp where
  next_order_id : Option Key := none
  ibToUuidMap : List (Key × Key) := []
  nextUuid : Key := 0
deriving DecidableEq, Repr

/-- The ids a strategy instance tracks across `place_order`. -/
structure StratIds where
  order_id : Option Key := none
  ib_order_id : Option Key := none
  status : String := "PENDING"
deriving DecidableEq, Repr

/-- A gateway submission `placeOrder(brokerOrderId, contract, order)`;
`mappedInternal` records the content of `ib_to_uuid_map[brokerOrderId]` at
the moment of the call. -/
inductive SubmitEffect
  | submit (brokerOrderId : Key) (mappedInternal : Option Key)
deriving DecidableEq, Repr

/-- `BaseExecutionStrategy.place_order` (`execution_base.py:117-131`): under
the strategy lock, guarded on a truthy `next_order_id`, mint the UUID
`order_id`, take the broker number as `ib_order_id`, record
`ib_to_uuid_map[ib_order_id] = order_id`, and only then call
`placeOrder` and mark the strategy ACTIVE. -/
def placeOrderNew (app : GatewayApp) (st : StratIds) :
    GatewayApp × StratIds × List SubmitEffect :=
  match app.next_order_id with
  | none => (app, st, [])
  | some n =>
    if n = 0 then (app, st, [])
    else
      let uuid := app.nextUuid
      let app1 : GatewayApp :=
        { app with nextUuid := app.nextUuid + 1,
                   next_order_id := some (n + 1),
                   ibToUuidMap := setKey app.ibToUuidMap n uuid }
      let st1 : StratIds := { order_id := some uuid, ib_order_id := some n, status := "ACTIVE" }
      (app1, st1, [SubmitEffect.submit n (lookup app1.ibToUuidMap n)])

/-- The legacy `BaseExecutionStrategy.place_order`
(`dynamic_limit.py:64-72`): takes the broker number itself as the strategy's
`order_id`, records nothing in `ib_to_uuid_map`, and submits. -/
def placeOrderLegacy (app : GatewayApp) (st : StratIds) :
    GatewayApp × StratIds × List SubmitEffect :=
  match app.next_order_id with
  | none => (app, st, [])
  | some n =>
    if n = 0 then (app, st, [])
    else
      let app1 : GatewayApp := { app with next_order_id := some (n + 1) }
      let st1 : StratIds := { st with order_id := some n, status := "ACTIVE" }
      (app1, st1, [SubmitEffect.submit n (lookup app1.ibToUuidMap n)])

/-! ## Helper lemmas about the ledgers -/

theorem lookup_setKey_self {α : Type} (l : List (Key × α)) (k : Key) (v : α) :
    lookup (setKey l k v) k = some v := by
  induction l with
  | nil => simp [setKey, lookup]
  | cons hd t ih =>
    obtain ⟨k', v'⟩ := hd
    by_cases hk : k' = k
    · simp [setKey, hk, lookup]
    · simp [setKey, hk, lookup, ih]

theorem lookup_setKey_ne {α : Type} (l : List (Key × α)) (k k' : Key) (v : α)
    (h : k' ≠ k) : lookup (setKey l k v) k' = lookup l k' := by
  have hkk : ¬ k = k' := fun he => h he.symm
  induction l with
  | nil => simp [setKey, lookup, hkk]
  | cons hd t ih =>
    obtain ⟨a, b⟩ := hd
    by_cases hk : a = k
    · subst hk
      simp [setKey, lookup, hkk]
    · simp [setKey, lookup, hk, ih]

theorem mem_keys_setKey {α : Type} (l : List (Key × α)) (k k' : Key) (v : α) :
    k' ∈ (setKey l k v).map Prod.fst ↔ (k' ∈ l.map Prod.fst ∨ k' = k) := by
  induction l with
  | nil => simp [setKey]
  | cons hd t ih =>
    obtain ⟨a, b⟩ := hd
    by_cases hk : a = k
    · simp only [setKey, if_pos hk, List.map_cons, List.mem_cons]
      constructor
      · rintro (h1 | h1)
        · exact Or.inr h1
        · exact Or.inl (Or.inr h1)
      · rintro ((h1 | h1) | h1)
        · exact Or.inl (hk ▸ h1)
        · exact Or.inr h1
        · exact Or.inl h1
    · simp only [setKey, if_neg hk, List.map_cons, List.mem_cons, ih]
      tauto

theorem setKey_keys_nodup {α : Type} (l : List (Key × α)) (k : Key) (v : α)
    (h : (l.map Prod.fst).Nodup) : ((setKey l k v).map Prod.fst).Nodup := by
  induction l with
  | nil => simp [setKey]
  | cons hd t ih =>
    obtain ⟨a, b⟩ := hd
    simp only [List.map_cons, List.nodup_cons] at h
    by_cases hk : a = k
    · simp only [setKey, if_pos hk, List.map_cons, List.nodup_cons]
      exact ⟨hk ▸ h.1, h.2⟩
    · simp only [setKey, if_neg hk, List.map_cons, List.nodup_cons]
      refine ⟨?_, ih h.2⟩
      intro hmem
      rcases (mem_keys_setKey t k a v).mp hmem with h1 | h1
      · exact h.1 h1
      · exact hk h1

/-! ## Lemmas about `process_fill` -/

theorem builtPosition_quantity (s : String) (q a : ℚ) (it sid : String)
    (stk : Option ℚ) (ex ot pd : Option String) :
    (builtPosition s q a it sid stk ex ot pd).quantity = q := by
  unfold builtPosition
  split_ifs <;> rfl

theorem builtPosition_avg_price (s : String) (q a : ℚ) (it sid : String)
    (stk : Option ℚ) (ex ot pd : Option String) :
    (builtPosition s q a it sid stk ex ot pd).avg_price = a := by
  unfold builtPosition
  split_ifs <;> rfl

theorem builtPosition_instrument (s : String) (q a : ℚ) (it sid : String)
    (stk : Option ℚ) (ex ot pd : Option String) :
    (builtPosition s q a it sid stk ex ot pd).instrument_type = it := by
  unfold builtPosition
  split_ifs <;> rfl

theorem processFillInternal_orders (st : PMState) (oid : Key) (q p : ℚ) :
    (processFillInternal st oid q p).orders = st.orders := by
  cases h : lookup st.orders oid <;>
    simp [processFillInternal, h, updatePositionInternal]

theorem processFillInternal_nextId (st : PMState) (oid : Key) (q p : ℚ) :
    (processFillInternal st oid q p).nextId = st.nextId := by
  cases h : lookup st.orders oid <;>
    simp [processFillInternal, h, updatePositionInternal]

theorem processFillInternal_positions_resolved (st : PMState) (oid : Key) (q p : ℚ)
    (ord : Order) (hord : lookup st.orders oid = some ord) :
    ∃ pos : Position,
      (processFillInternal st oid q p).positions = setKey st.positions ord.position_id pos := by
  simp only [processFillInternal, hord, updatePositionInternal]
  exact ⟨_, rfl⟩

theorem processFillInternal_lookup_other (st : PMState) (oid : Key) (q p : ℚ) (pid : Key)
    (h : ∀ ord, lookup st.orders oid = some ord → ord.position_id ≠ pid) :
    lookup (processFillInternal st oid q p).positions pid = lookup st.positions pid := by
  cases hord : lookup st.orders oid with
  | none => simp [processFillInternal, hord]
  | some ord =>
    simp only [processFillInternal, hord, updatePositionInternal]
    exact lookup_setKey_ne _ _ _ _ (fun he => h ord hord he.symm)

theorem sameSign_iff (a b : ℚ) : sameSign a b = true ↔ 0 < a * b := by
  rw [mul_pos_iff]
  simp [sameSign, Bool.or_eq_true, Bool.and_eq_true, decide_eq_true_eq]

/-- The nested average-price conditional of `_process_fill_internal` computes
exactly the spec's priority rule. -/
theorem codeAvg_eq_specAvgPrice (cq ca d fp : ℚ) :
    (if cq + d ≠ 0 then
       if cq * (cq + d) > 0 then
         if |cq + d| > |cq| then (|cq| * ca + |d| * fp) / |cq + d| else ca
       else fp
     else 0) = specAvgPrice cq ca d fp := by
  unfold specAvgPrice
  by_cases h0 : cq + d = 0
  · simp [h0]
  · by_cases hs : 0 < cq * (cq + d)
    · have hss : sameSign cq (cq + d) = true := (sameSign_iff _ _).mpr hs
      by_cases habs : |cq + d| > |cq|
      · simp [h0, hs, hss, habs]
      · simp [h0, hs, hss, habs]
    · have hss : ¬ sameSign cq (cq + d) = true := by
        rw [sameSign_iff]
        exact hs
      simp [h0, hs, hss]

theorem itmB_iff (c : Bool) (cp k : ℚ) :
    itmB c cp k = true ↔ ((c = true ∧ cp > k) ∨ (c = false ∧ cp < k)) := by
  cases c <;> simp [itmB]

/-- A fill of `|q0|` against a position currently at `q0`, in the closing
direction (`BUY` when short, `SELL` otherwise), leaves the position flat with
zero average price. -/
theorem processFill_flattens (st : PMState) (oid : Key) (fp : ℚ) (ord : Order) (q0 : ℚ)
    (hord : lookup st.orders oid = some ord)
    (hact : ord.action = if q0 < 0 then Action.BUY else Action.SELL)
    (hq : posQuantity st ord.position_id = q0) :
    lookup (processFillInternal st oid |q0| fp).positions ord.position_id
      = some (builtPosition ord.symbol 0 0 ord.instrument_type ord.strategy_id
          ord.strike ord.expiry ord.option_type ord.pair_id) := by
  have hdelta : deltaOf ord.action |q0| = -q0 := by
    rw [hact]
    by_cases h : q0 < 0
    · simp [h, deltaOf, abs_of_neg h]
    · simp [h, deltaOf, abs_of_nonneg (le_of_not_lt h)]
  simp only [processFillInternal, hord, updatePositionInternal, hq, hdelta,
    add_neg_cancel, lookup_setKey_self]
  norm_num

theorem matchesPosition_instrument (p : Position) (symbol it sid : String)
    (stk : Option ℚ) (ex ot : Option String)
    (h : matchesPosition p symbol it sid stk ex ot = true) :
    p.instrument_type = it := by
  unfold matchesPosition at h
  by_cases h1 : p.symbol = symbol ∧ p.strategy_id = sid ∧ p.instrument_type = it
  · exact h1.2.2
  · rw [if_neg h1] at h
    exact absurd h (by simp)

theorem findMatching_mem (positions : List (Key × Position)) (symbol it sid : String)
    (stk : Option ℚ) (ex ot : Option String) (pid : Key)
    (h : findMatchingPositionInternal positions symbol it sid stk ex ot = some pid) :
    pid ∈ positions.map Prod.fst := by
  induction positions with
  | nil => simp [findMatchingPositionInternal] at h
  | cons hd t ih =>
    obtain ⟨k, p⟩ := hd
    simp only [findMatchingPositionInternal] at h
    by_cases hm : matchesPosition p symbol it sid stk ex ot = true
    · rw [if_pos hm] at h
      cases h
      simp
    · rw [if_neg hm] at h
      simp [ih h]

theorem findMatching_lookup (positions : List (Key × Position)) (symbol it sid : String)
    (stk : Option ℚ) (ex ot : Option String) (pid : Key)
    (hnodup : (positions.map Prod.fst).Nodup)
    (h : findMatchingPositionInternal positions symbol it sid stk ex ot = some pid) :
    ∃ p, lookup positions pid = some p ∧
      matchesPosition p symbol it sid stk ex ot = true := by
  induction positions with
  | nil => simp [findMatchingPositionInternal] at h
  | cons hd t ih =>
    obtain ⟨k, p⟩ := hd
    simp only [findMatchingPositionInternal] at h
    simp only [List.map_cons, List.nodup_cons] at hnodup
    by_cases hm : matchesPosition p symbol it sid stk ex ot = true
    · rw [if_pos hm] at h
      cases h
      exact ⟨p, by simp [lookup], hm⟩
    · rw [if_neg hm] at h
      obtain ⟨p', hp', hm'⟩ := ih hnodup.2 h
      refine ⟨p', ?_, hm'⟩
      have hkpid : ¬ k = pid := by
        intro he
        exact hnodup.1 (he ▸ findMatching_mem t symbol it sid stk ex ot pid h)
      simp [lookup, hkpid, hp']

/-- The ITM/OTM synthetic close fill: running the `synthCloseOrder` through
`_process_fill_internal` at premium 0 leaves the option position flat. -/
theorem synthClose_fill_flattens (st : PMState) (oid : Key) (symbol : String)
    (position : Position) (strike : ℚ) (expiry ot : String) (pos_id : Key) (fp : ℚ)
    (hord : lookup st.orders oid
      = some (synthCloseOrder symbol position strike expiry ot pos_id))
    (hq : posQuantity st pos_id = position.quantity) :
    lookup (processFillInternal st oid |position.quantity| fp).positions pos_id
      = some (builtPosition symbol 0 0 "OPTION" position.strategy_id
          (some strike) (some expiry) (some ot) none) := by
  have hres := processFill_flattens st oid fp
    (synthCloseOrder symbol position strike expiry ot pos_id)
    position.quantity hord rfl hq
  simpa [synthCloseOrder] using hres

/-- A fill routed through an order freshly keyed at `soid`, whose
`position_id` differs from `pid`, does not disturb the position at `pid`. -/
theorem fill_of_setKey_lookup_ne (ordersB : List (Key × Order))
    (positionsB : List (Key × Position)) (nid soid : Key) (sOrd : Order)
    (q p : ℚ) (pid : Key) (hne : sOrd.position_id ≠ pid) :
    lookup (processFillInternal (PMState.mk (setKey ordersB soid sOrd) positionsB nid)
        soid q p).positions pid
      = lookup positionsB pid := by
  have h := processFillInternal_lookup_other
    (PMState.mk (setKey ordersB soid sOrd) positionsB nid) soid q p pid ?_
  · exact h
  · intro ord hord
    have hso : some sOrd = some ord := by
      rw [← hord]
      show some sOrd = lookup (setKey ordersB soid sOrd) soid
      rw [lookup_setKey_self]
    cases hso
    exact hne

theorem invariantAll_processFill (st : PMState) (h : invariantAll st)
    (oid : Key) (q p : ℚ) : invariantAll (processFill st oid q p) := by
  intro pid pos hl hq
  cases hord : lookup st.orders oid with
  | none =>
    simp only [processFill, processFillInternal, hord] at hl
    exact h pid pos hl hq
  | some ord =>
    simp only [processFill, processFillInternal, hord, updatePositionInternal] at hl
    by_cases hpid : ord.position_id = pid
    · rw [hpid, lookup_setKey_self] at hl
      cases hl
      rw [builtPosition_quantity] at hq
      rw [builtPosition_avg_price]
      simp [hq]
    · rw [lookup_setKey_ne _ _ _ _ (fun he => hpid he.symm)] at hl
      exact h pid pos hl hq

theorem invariantAll_applyFills (fills : List Fill) (st : PMState)
    (h : invariantAll st) : invariantAll (applyFills st fills) := by
  induction fills generalizing st with
  | nil => exact h
  | cons f fs ih => exact ih _ (invariantAll_processFill st h f.oid f.qty f.price)

theorem orderStatusHandler_skip (st : AppState) (orderId : Key)
    (filled remaining price : ℚ) (uuid : Key) (ord : Order)
    (hmap : lookup st.ibMap orderId = some uuid)
    (hord : lookup st.pm.orders uuid = some ord)
    (hle : filled ≤ ord.last_processed_fill) :
    orderStatusHandler st orderId filled remaining price = st := by
  simp only [orderStatusHandler, hmap, hord]
  by_cases hf : filled > 0
  · have hn : ¬ (filled - ord.last_processed_fill > 0) := by linarith
    simp [hf, hn]
  · simp [hf]

theorem orderStatusHandler_idem (st : AppState) (orderId : Key)
    (filled remaining price : ℚ) :
    orderStatusHandler (orderStatusHandler st orderId filled remaining price)
        orderId filled remaining price
      = orderStatusHandler st orderId filled remaining price := by
  cases hmap : lookup st.ibMap orderId with
  | none => simp [orderStatusHandler, hmap]
  | some uuid =>
    cases hord : lookup st.pm.orders uuid with
    | none => simp [orderStatusHandler, hmap, hord]
    | some ord =>
      by_cases hf : filled > 0
      · by_cases hn : filled - ord.last_processed_fill > 0
        · have h1 : orderStatusHandler st orderId filled remaining price
              = AppState.mk st.ibMap
                  (updateOrderFill
                    (processFill st.pm uuid (filled - ord.last_processed_fill) price)
                    uuid filled (decide (remaining = 0))) := by
            simp [orderStatusHandler, hmap, hord, hf, hn]
          have hlook1 : lookup
              (processFill st.pm uuid (filled - ord.last_processed_fill) price).orders uuid
              = some ord := by
            show lookup
              (processFillInternal st.pm uuid (filled - ord.last_processed_fill) price).orders
              uuid = some ord
            rw [processFillInternal_orders]
            exact hord
          rw [h1]
          refine orderStatusHandler_skip _ _ _ _ _ uuid
            { ord with last_processed_fill := filled, fill_processed := decide (remaining = 0) }
            hmap ?_ ?_
          · show lookup (updateOrderFill _ _ _ _).orders uuid = _
            simp [updateOrderFill, hlook1, lookup_setKey_self]
          · exact le_refl filled
        · have h0 : orderStatusHandler st orderId filled remaining price = st := by
            simp [orderStatusHandler, hmap, hord, hf, hn]
          rw [h0]
          exact h0
      · have h0 : orderStatusHandler st orderId filled remaining price = st := by
          simp [orderStatusHandler, hmap, hord, hf]
        rw [h0]
        exact h0

/-! ## Concrete states used by the witnesses -/

def emptyPM : PMState := {}

def c1Order : Order :=
  { symbol := "AAPL", action := .BUY, quantity := 5, position_id := 7,
    strategy_id := "s1", instrument_type := "STOCK" }

def c1State : PMState := { orders := [(1, c1Order)], positions := [], nextId := 10 }

def c3Order : Order :=
  { symbol := "MSFT", action := .SELL, quantity := 10, position_id := 3,
    strategy_id := "s2", instrument_type := "STOCK", last_processed_fill := 5 }

def c3App : AppState :=
  { ibMap := [(100, 2)], pm := { orders := [(2, c3Order)], positions := [], nextId := 9 } }

def c7App : AppState := {}

/-! ## The claims -/

/-- C1: whenever `process_fill(order_id, new_fill_quantity, fill_price)`
resolves an existing order, the stored position at the order's `position_id`
is updated to `quantity = current_quantity + delta` (with
`delta = ±new_fill_quantity` signed by the order's action) and to the
`avg_price` selected by the spec's priority rule `specAvgPrice`: `0` when the
new quantity is zero; the quantity-weighted average when extending in the
same direction; unchanged when reducing in the same direction; the fill
price when the sign flipped through zero. -/
theorem C1_process_fill_position_update (st : PMState) (oid : Key) (q p : ℚ)
    (ord : Order) (hord : lookup st.orders oid = some ord) :
    ((lookup (processFill st oid q p).positions ord.position_id).map Position.quantity
        = some (posQuantity st ord.position_id + deltaOf ord.action q)) ∧
    ((lookup (processFill st oid q p).positions ord.position_id).map Position.avg_price
        = some (specAvgPrice (posQuantity st ord.position_id)
            (posAvgPrice st ord.position_id) (deltaOf ord.action q) p)) := by
  have hcomp := codeAvg_eq_specAvgPrice (posQuantity st ord.position_id)
    (posAvgPrice st ord.position_id) (deltaOf ord.action q) p
  constructor
  · simp [processFill, processFillInternal, hord, updatePositionInternal,
      lookup_setKey_self, builtPosition_quantity]
  · simp only [processFill, processFillInternal, hord, updatePositionInternal,
      lookup_setKey_self, Option.map_some', builtPosition_avg_price]
    rw [hcomp]

/-- Witness for C1: a concrete BUY fill of 5 at 10 against a fresh position. -/
theorem C1_witness :
    lookup c1State.orders 1 = some c1Order ∧
    (((lookup (processFill c1State 1 5 10).positions c1Order.position_id).map Position.quantity
        = some (posQuantity c1State c1Order.position_id + deltaOf c1Order.action 5)) ∧
     ((lookup (processFill c1State 1 5 10).positions c1Order.position_id).map Position.avg_price
        = some (specAvgPrice (posQuantity c1State c1Order.position_id)
            (posAvgPrice c1State c1Order.position_id) (deltaOf c1Order.action 5) 10))) :=
  ⟨rfl, C1_process_fill_position_update c1State 1 5 10 c1Order rfl⟩

/-- C2: for every fill sequence driven through `process_fill`, every
intermediate ledger state (after each fill, i.e. after each prefix of the
sequence) satisfies the invariant `quantity == 0 → avg_price == 0` for every
stored position, provided the initial ledger does. -/
theorem C2_flat_position_zero_avg (st : PMState) (h : invariantAll st)
    (fills : List Fill) :
    ∀ n : Nat, invariantAll (applyFills st (fills.take n)) :=
  fun n => invariantAll_applyFills (fills.take n) st h

/-- Witness for C2: the invariant holds along a concrete two-fill sequence. -/
theorem C2_witness :
    invariantAll c1State ∧
    ∀ n : Nat, invariantAll (applyFills c1State ([⟨1, 5, 10⟩, ⟨1, 5, 20⟩].take n)) :=
  have h : invariantAll c1State := fun _ _ hl => nomatch hl
  ⟨h, C2_flat_position_zero_avg c1State h [⟨1, 5, 10⟩, ⟨1, 5, 20⟩]⟩

/-- C3: an `orderStatus` callback whose cumulative `filled` amount does not
exceed the resolved order's recorded `last_processed_fill` leaves the
position ledger and the order record unchanged; and delivering any callback
twice with the identical `filled` value produces zero additional ledger
delta the second time (the handler is idempotent). -/
theorem C3_duplicate_fill_callbacks (st : AppState) (orderId : Key)
    (filled remaining price : ℚ) :
    (∀ uuid ord, lookup st.ibMap orderId = some uuid →
        lookup st.pm.orders uuid = some ord →
        filled ≤ ord.last_processed_fill →
        orderStatusHandler st orderId filled remaining price = st) ∧
    orderStatusHandler (orderStatusHandler st orderId filled remaining price)
        orderId filled remaining price
      = orderStatusHandler st orderId filled remaining price :=
  ⟨fun uuid ord hmap hord hle =>
      orderStatusHandler_skip st orderId filled remaining price uuid ord hmap hord hle,
    orderStatusHandler_idem st orderId filled remaining price⟩

/-- Witness for C3: a duplicate callback (`filled = 5` already processed) is a
no-op, and a fresh callback (`filled = 7`) applied twice changes nothing the
second time. -/
theorem C3_witness :
    lookup c3App.ibMap 100 = some 2 ∧
    lookup c3App.pm.orders 2 = some c3Order ∧
    (5 : ℚ) ≤ c3Order.last_processed_fill ∧
    orderStatusHandler c3App 100 5 5 20 = c3App ∧
    orderStatusHandler (orderStatusHandler c3App 100 7 3 20) 100 7 3 20
      = orderStatusHandler c3App 100 7 3 20 :=
  ⟨rfl, rfl, by decide,
    (C3_duplicate_fill_callbacks c3App 100 5 5 20).1 2 c3Order rfl rfl (by decide),
    (C3_duplicate_fill_callbacks c3App 100 7 3 20).2⟩

/-- C7: a `process_fill` call whose `order_id` is absent from the order
ledger, and an `orderStatus` callback whose broker id has no recorded
mapping in `ib_to_uuid_map`, are both dropped without modifying any position
or order state. -/
theorem C7_unknown_ids_dropped (pm : PMState) (oid : Key) (q p : ℚ)
    (st : AppState) (ibId : Key) (filled remaining price : ℚ)
    (h1 : lookup pm.orders oid = none) (h2 : lookup st.ibMap ibId = none) :
    processFill pm oid q p = pm ∧
    orderStatusHandler st ibId filled remaining price = st := by
  constructor
  · simp [processFill, processFillInternal, h1]
  · simp [orderStatusHandler, h2]

/-- Witness for C7: unknown order id and unknown broker id on empty ledgers. -/
theorem C7_witness :
    lookup emptyPM.orders 5 = none ∧
    lookup c7App.ibMap 9 = none ∧
    processFill emptyPM 5 1 2 = emptyPM ∧
    orderStatusHandler c7App 9 1 0 3 = c7App :=
  ⟨rfl, rfl, (C7_unknown_ids_dropped emptyPM 5 1 2 c7App 9 1 0 3 rfl rfl).1,
    (C7_unknown_ids_dropped emptyPM 5 1 2 c7App 9 1 0 3 rfl rfl).2⟩

/-- An ACTIVE Dynamic-Limit (`limit_orders.py`) strategy: `timeout = 60`, a
live LMT order at price 10, no fills yet. -/
def dlActiveState : DLState :=
  { status := "ACTIVE", hasOrderId := true, hasIbOrderId := true,
    timeout_seconds := 60, converted_to_market := false, attempts := 0,
    filled_quantity := 0, signal_quantity := 100, hasPartFill := false,
    action := .BUY, current_order := some ⟨"LMT", "DAY", 10⟩ }

/-- The same strategy with a partial fill of 10 of 100 accrued. -/
def dlPartState : DLState :=
  { dlActiveState with hasPartFill := true, filled_quantity := 10 }

/-- An ACTIVE legacy Dynamic-Limit (`dynamic_limit.py`) strategy, timeout 60. -/
def legacyActiveState : LegacyDLState :=
  { status := "ACTIVE", hasOrderId := true, timeout_seconds := 60,
    attempts := 0, action := .BUY }

/-- C4: the Dynamic-Limit limit price.  With `bid = 9.95`, `ask = 10.05`,
`tick = 0.05`, the `limit_orders.py` implementation prices a BUY and a SELL
at the tick-rounded mid `10.00`, falls back to the last trade price when
bid/ask are missing, and returns "no order" when that too is missing —
exactly as the claim states.  The `DynamicLimitOrderStrategy` actually wired
in by `execution_strategies/__init__.py`, however, is the legacy
`dynamic_limit.py` one, which prices the same BUY at the raw bid `9.95`
(no mid, no rounding, no clamp) and prices at `0` — instead of returning
"no order" — when quotes are missing. -/
theorem C4_dynamic_limit_pricing :
    dlCreateOrderPrice .BUY (some (199/20)) (some (201/20)) none (some (1/20)) = some 10 ∧
    dlCreateOrderPrice .SELL (some (199/20)) (some (201/20)) none (some (1/20)) = some 10 ∧
    dlCreateOrderPrice .BUY none none (some 7) (some (1/20)) = some 7 ∧
    dlCreateOrderPrice .BUY (some 0) (some (201/20)) (some 7) (some (1/20)) = some 7 ∧
    dlCreateOrderPrice .BUY none none none (some (1/20)) = none ∧
    legacyDlCreateOrderPrice .BUY (some (199/20)) (some (201/20)) = 199/20 ∧
    legacyDlCreateOrderPrice .BUY none none = 0 := by
  refine ⟨?_, ?_, ?_, ?_, ?_, ?_, ?_⟩ <;>
    norm_num [dlCreateOrderPrice, legacyDlCreateOrderPrice, pyRound]

/-- C5: timeout conversion of the Dynamic-Limit strategy.  For the
`limit_orders.py` implementation (first five conjuncts): with `T = 60` and
no partial fill there is no conversion at `t = 60`, one in-place
`modify_order({orderType MKT, tif IOC, lmtPrice 0})` at `t = 61`, the
one-shot `converted_to_market` flag is set, and a later check at `t = 62`
emits nothing; with a partial fill accrued the trigger moves past `t = 90`
(nothing at 61, conversion at 91).  The legacy `dynamic_limit.py` strategy
actually wired in by `__init__.py` (last two conjuncts) instead reacts to a
status callback past the timeout by cancelling and submitting a brand-new
DAY market order — and, having no one-shot flag, does so again on the next
callback. -/
theorem C5_timeout_conversion :
    (checkAndUpdate dlActiveState 60 none none none).2 = [] ∧
    (checkAndUpdate dlActiveState 61 none none none).2
        = [DLEffect.submitModify ⟨"MKT", "IOC", 0⟩] ∧
    (checkAndUpdate dlActiveState 61 none none none).1.converted_to_market = true ∧
    (checkAndUpdate (checkAndUpdate dlActiveState 61 none none none).1 62 none none none).2
        = [] ∧
    (checkAndUpdate dlPartState 61 none none none).2 = [] ∧
    (checkAndUpdate dlPartState 91 none none none).2
        = [DLEffect.submitModify ⟨"MKT", "IOC", 0⟩] ∧
    (legacyProcessOrderStatus legacyActiveState "Submitted" 0 100 0 61
        none none none none true).2
        = [LegacyEffect.cancelOrd, LegacyEffect.placeMkt "DAY" 100] ∧
    (legacyProcessOrderStatus
        (legacyProcessOrderStatus legacyActiveState "Submitted" 0 100 0 61
          none none none none true).1
        "Submitted" 0 100 0 62 none none none none true).2
        = [LegacyEffect.cancelOrd, LegacyEffect.placeMkt "DAY" 100] := by
  have hsf : ("Submitted" : String) ≠ "Filled" := by decide
  have hlmt : (some (⟨"LMT", "DAY", 10⟩ : OrderPayload)) ≠ none := by decide
  refine ⟨?_, ?_, ?_, ?_, ?_, ?_, ?_, ?_⟩ <;>
    norm_num [checkAndUpdate, checkReprice, modifyOrder, dlActiveState, dlPartState,
      legacyActiveState, legacyProcessOrderStatus, hsf, hlmt]

/-- The broker gateway about to assign order number 100, empty translator. -/
def gwApp : GatewayApp := { next_order_id := some 100, ibToUuidMap := [], nextUuid := 0 }

def stratInit : StratIds := {}

/-- C8: order submission and the broker-id translation table.  The
`execution_base.py` `place_order` (used by the wired IOC-Market and
Plain-Limit variants) mints the internal UUID order id, records
`ib_to_uuid_map[100] = uuid` and only then hands the order to the gateway —
the submission effect observes the mapping already present.  The legacy
`dynamic_limit.py` `place_order`, used by the wired Dynamic-Limit variant,
records no mapping at all (it reuses the broker number as its order id), so
its submission reaches the gateway with no mapping recorded and every later
callback for broker id 100 finds none. -/
theorem C8_translator_mapping :
    placeOrderNew gwApp stratInit
        = ({ next_order_id := some 101, ibToUuidMap := [(100, 0)], nextUuid := 1 },
           { order_id := some 0, ib_order_id := some 100, status := "ACTIVE" },
           [SubmitEffect.submit 100 (some 0)]) ∧
    lookup (placeOrderNew gwApp stratInit).1.ibToUuidMap 100 = some 0 ∧
    placeOrderLegacy gwApp stratInit
        = ({ next_order_id := some 101, ibToUuidMap := [], nextUuid := 0 },
           { order_id := some 100, ib_order_id := none, status := "ACTIVE" },
           [SubmitEffect.submit 100 none]) ∧
    lookup (placeOrderLegacy gwApp stratInit).1.ibToUuidMap 100 = none := by
  refine ⟨?_, ?_, ?_, ?_⟩ <;> decide

/-- C9: `is_complete`.  The `execution_base.py` implementation (used by the
wired IOC-Market and Plain-Limit variants) returns true exactly on status
COMPLETED or CANCELLED, as the claim states; but the Dynamic-Limit variant
wired in by `__init__.py` uses the legacy `dynamic_limit.py` base class,
whose `is_complete` is true only on COMPLETED — it returns false on
CANCELLED. -/
theorem C9_is_complete :
    (∀ s : String, execBaseIsComplete s = true ↔ (s = "COMPLETED" ∨ s = "CANCELLED")) ∧
    legacyIsComplete "COMPLETED" = true ∧
    legacyIsComplete "CANCELLED" = false ∧
    execBaseIsComplete "CANCELLED" = true := by
  refine ⟨?_, by decide, by decide, by decide⟩
  intro s
  simp [execBaseIsComplete, Bool.or_eq_true, beq_iff_eq]

/-- C10: for an in-the-money settlement, the synthetic stock leg is a STOCK
order for `|quantity| * 100` shares, run through `process_fill` at the
strike price against the resolved stock position, and its direction is BUY
exactly when (the option is a CALL) equals (the position quantity is
positive): a long CALL buys, a short CALL sells, a long PUT sells, a short
PUT buys. -/
theorem C10_stock_leg_direction (st : PMState) (symbol : String) (position : Position)
    (close strike : ℚ) (ot expiry : String) (pos_id : Key)
    (hk : position.strike = some strike) (hot : position.option_type = some ot)
    (he : position.expiry = some expiry)
    (hitm : itmB (isCallType ot) close strike = true) :
    ∃ (soid : Key) (stockOrd : Order) (nid : Key),
      processExercise st symbol position close pos_id
        = some (processFillInternal
            (PMState.mk
              (setKey (exerciseAfterClose st symbol position strike expiry ot pos_id).orders
                soid stockOrd)
              (exerciseAfterClose st symbol position strike expiry ot pos_id).positions nid)
            soid (|position.quantity| * 100) strike) ∧
      stockOrd.instrument_type = "STOCK" ∧
      stockOrd.quantity = |position.quantity| * 100 ∧
      stockOrd.position_id
        = (findMatchingPositionInternal
            (exerciseAfterClose st symbol position strike expiry ot pos_id).positions
            symbol "STOCK" position.strategy_id none none none).getD
            (exerciseAfterClose st symbol position strike expiry ot pos_id).nextId ∧
      (stockOrd.action = Action.BUY ↔ isCallType ot = decide (0 < position.quantity)) := by
  simp only [processExercise, hk, hot, he, hitm]
  cases hfound : findMatchingPositionInternal
      (exerciseAfterClose st symbol position strike expiry ot pos_id).positions
      symbol "STOCK" position.strategy_id none none none with
  | some pid0 =>
    refine ⟨(exerciseAfterClose st symbol position strike expiry ot pos_id).nextId,
      synthStockOrder symbol position (isCallType ot) pid0,
      (exerciseAfterClose st symbol position strike expiry ot pos_id).nextId + 1,
      rfl, rfl, rfl, by simp [synthStockOrder], ?_⟩
    by_cases hb : isCallType ot = decide (0 < position.quantity) <;>
      simp [synthStockOrder, hb]
  | none =>
    refine ⟨(exerciseAfterClose st symbol position strike expiry ot pos_id).nextId + 1,
      synthStockOrder symbol position (isCallType ot)
        (exerciseAfterClose st symbol position strike expiry ot pos_id).nextId,
      (exerciseAfterClose st symbol position strike expiry ot pos_id).nextId + 2,
      rfl, rfl, rfl, by simp [synthStockOrder], ?_⟩
    by_cases hb : isCallType ot = decide (0 < position.quantity) <;>
      simp [synthStockOrder, hb]

/-- C6: settlement of an expired option position.  The ITM test is
`close > strike` for a CALL and `close < strike` for a PUT.  In both
outcomes the option position ends flat (quantity 0, avg_price 0) through a
synthetic close order filled at price 0.  If ITM, a synthetic STOCK order
sized `|quantity| * 100` is additionally run through `process_fill` at the
strike price, against the stock position found by identity match
(symbol, strategy_id, STOCK) in the post-close ledger or a newly minted
position id.  If OTM, the final state is exactly the post-close state and
the only order added is the OPTION close order — no stock order exists. -/
theorem C6_exercise_settlement (st : PMState) (symbol : String) (position : Position)
    (close strike : ℚ) (ot expiry : String) (pos_id : Key)
    (hk : position.strike = some strike) (hot : position.option_type = some ot)
    (he : position.expiry = some expiry)
    (hpos : lookup st.positions pos_id = some position)
    (hfresh : pos_id < st.nextId)
    (hnodup : (st.positions.map Prod.fst).Nodup) :
    ∃ st', processExercise st symbol position close pos_id = some st' ∧
      (itmB (isCallType ot) close strike = true ↔
        ((isCallType ot = true ∧ close > strike) ∨ (isCallType ot = false ∧ close < strike))) ∧
      (lookup st'.positions pos_id).map Position.quantity = some 0 ∧
      (lookup st'.positions pos_id).map Position.avg_price = some 0 ∧
      (if itmB (isCallType ot) close strike then
        ∃ (soid : Key) (stockOrd : Order) (nid : Key),
          stockOrd.instrument_type = "STOCK" ∧
          stockOrd.quantity = |position.quantity| * 100 ∧
          stockOrd.position_id
            = (findMatchingPositionInternal
                (exerciseAfterClose st symbol position strike expiry ot pos_id).positions
                symbol "STOCK" position.strategy_id none none none).getD
                (exerciseAfterClose st symbol position strike expiry ot pos_id).nextId ∧
          st' = processFillInternal
              (PMState.mk
                (setKey (exerciseAfterClose st symbol position strike expiry ot pos_id).orders
                  soid stockOrd)
                (exerciseAfterClose st symbol position strike expiry ot pos_id).positions nid)
              soid (|position.quantity| * 100) strike
      else
        st' = exerciseAfterClose st symbol position strike expiry ot pos_id ∧
        st'.orders = setKey st.orders st.nextId
          (synthCloseOrder symbol position strike expiry ot pos_id)) := by
  have hordd : lookup (exerciseCloseInserted st symbol position strike expiry ot pos_id).orders
      st.nextId = some (synthCloseOrder symbol position strike expiry ot pos_id) := by
    simp [exerciseCloseInserted, lookup_setKey_self]
  have hq0 : posQuantity (exerciseCloseInserted st symbol position strike expiry ot pos_id)
      pos_id = position.quantity := by
    simp [posQuantity, exerciseCloseInserted, hpos]
  have hflat2 : lookup
      (exerciseAfterClose st symbol position strike expiry ot pos_id).positions pos_id
      = some (builtPosition symbol 0 0 "OPTION" position.strategy_id
          (some strike) (some expiry) (some ot) none) :=
    synthClose_fill_flattens
      (exerciseCloseInserted st symbol position strike expiry ot pos_id) st.nextId
      symbol position strike expiry ot pos_id 0 hordd hq0
  have hn2 : (exerciseAfterClose st symbol position strike expiry ot pos_id).nextId
      = st.nextId + 1 := by
    show (processFillInternal (exerciseCloseInserted st symbol position strike expiry ot pos_id)
      st.nextId |position.quantity| 0).nextId = st.nextId + 1
    rw [processFillInternal_nextId]
    rfl
  have hiff := itmB_iff (isCallType ot) close strike
  rcases Bool.eq_false_or_eq_true (itmB (isCallType ot) close strike) with hitm | hitm
  case inr => -- OTM
    refine ⟨exerciseAfterClose st symbol position strike expiry ot pos_id,
      ?_, hiff, ?_, ?_, ?_⟩
    · simp [processExercise, hk, hot, he, hitm]
    · rw [hflat2]
      simp [builtPosition_quantity]
    · rw [hflat2]
      simp [builtPosition_avg_price]
    · rw [if_neg (show ¬ itmB (isCallType ot) close strike = true by simp [hitm])]
      refine ⟨rfl, ?_⟩
      show (processFillInternal (exerciseCloseInserted st symbol position strike expiry ot pos_id)
        st.nextId |position.quantity| 0).orders = _
      rw [processFillInternal_orders]
      rfl
  case inl => -- ITM
    rw [hitm] at hiff
    obtain ⟨pw, hpw⟩ := processFillInternal_positions_resolved
      (exerciseCloseInserted st symbol position strike expiry ot pos_id) st.nextId
      |position.quantity| 0 (synthCloseOrder symbol position strike expiry ot pos_id) hordd
    have hnodup2 : ((exerciseAfterClose st symbol position strike expiry ot
        pos_id).positions.map Prod.fst).Nodup := by
      show ((processFillInternal (exerciseCloseInserted st symbol position strike expiry ot pos_id)
        st.nextId |position.quantity| 0).positions.map Prod.fst).Nodup
      rw [hpw]
      exact setKey_keys_nodup _ _ _ hnodup
    simp only [processExercise, hk, hot, he, hitm]
    cases hfound : findMatchingPositionInternal
        (exerciseAfterClose st symbol position strike expiry ot pos_id).positions
        symbol "STOCK" position.strategy_id none none none with
    | some pid0 =>
      obtain ⟨pmatch, hpm, hmm⟩ := findMatching_lookup _ symbol "STOCK" position.strategy_id
        none none none pid0 hnodup2 hfound
      have hinstr := matchesPosition_instrument _ _ _ _ _ _ _ hmm
      have hne : pid0 ≠ pos_id := by
        intro heq
        rw [heq, hflat2] at hpm
        cases hpm
        rw [builtPosition_instrument] at hinstr
        exact absurd hinstr (by decide)
      refine ⟨_, rfl, by simpa using hiff, ?_, ?_, ?_⟩
      · rw [fill_of_setKey_lookup_ne _ _ _ _ _ _ _ _ hne, hflat2]
        simp [builtPosition_quantity]
      · rw [fill_of_setKey_lookup_ne _ _ _ _ _ _ _ _ hne, hflat2]
        simp [builtPosition_avg_price]
      · exact ⟨(exerciseAfterClose st symbol position strike expiry ot pos_id).nextId,
          synthStockOrder symbol position (isCallType ot) pid0,
          (exerciseAfterClose st symbol position strike expiry ot pos_id).nextId + 1,
          rfl, rfl, rfl, rfl⟩
    | none =>
      have hne : (exerciseAfterClose st symbol position strike expiry ot
          pos_id).nextId ≠ pos_id := by
        rw [hn2]
        exact Nat.ne_of_gt (Nat.lt_succ_of_lt hfresh)
      refine ⟨_, rfl, by simpa using hiff, ?_, ?_, ?_⟩
      · rw [fill_of_setKey_lookup_ne _ _ _ _ _ _ _ _ hne, hflat2]
        simp [builtPosition_quantity]
      · rw [fill_of_setKey_lookup_ne _ _ _ _ _ _ _ _ hne, hflat2]
        simp [builtPosition_avg_price]
      · exact ⟨(exerciseAfterClose st symbol position strike expiry ot pos_id).nextId + 1,
          synthStockOrder symbol position (isCallType ot)
            (exerciseAfterClose st symbol position strike expiry ot pos_id).nextId,
          (exerciseAfterClose st symbol position strike expiry ot pos_id).nextId + 2,
          rfl, rfl, rfl, rfl⟩

/-- A long CALL position: 2 contracts at strike 100. -/
def c6Position : Position :=
  { symbol := "XYZ", quantity := 2, avg_price := 3, strategy_id := "s1",
    instrument_type := "OPTION", strike := some 100, expiry := some "2026-01-16",
    option_type := some "CALL" }

def c6State : PMState := { orders := [], positions := [(7, c6Position)], nextId := 8 }

/-- Witness for C6: settling the long CALL against close 105 (in the money). -/
theorem C6_witness :
    lookup c6State.positions 7 = some c6Position ∧
    7 < c6State.nextId ∧
    (c6State.positions.map Prod.fst).Nodup ∧
    (∃ st', processExercise c6State "XYZ" c6Position 105 7 = some st' ∧
      (itmB (isCallType "CALL") 105 100 = true ↔
        ((isCallType "CALL" = true ∧ (105 : ℚ) > 100) ∨
         (isCallType "CALL" = false ∧ (105 : ℚ) < 100))) ∧
      (lookup st'.positions 7).map Position.quantity = some 0 ∧
      (lookup st'.positions 7).map Position.avg_price = some 0 ∧
      (if itmB (isCallType "CALL") 105 100 then
        ∃ (soid : Key) (stockOrd : Order) (nid : Key),
          stockOrd.instrument_type = "STOCK" ∧
          stockOrd.quantity = |c6Position.quantity| * 100 ∧
          stockOrd.position_id
            = (findMatchingPositionInternal
                (exerciseAfterClose c6State "XYZ" c6Position 100 "2026-01-16" "CALL" 7).positions
                "XYZ" "STOCK" c6Position.strategy_id none none none).getD
                (exerciseAfterClose c6State "XYZ" c6Position 100 "2026-01-16" "CALL" 7).nextId ∧
          st' = processFillInternal
              (PMState.mk
                (setKey
                  (exerciseAfterClose c6State "XYZ" c6Position 100 "2026-01-16" "CALL" 7).orders
                  soid stockOrd)
                (exerciseAfterClose c6State "XYZ" c6Position 100 "2026-01-16" "CALL" 7).positions
                nid)
              soid (|c6Position.quantity| * 100) 100
      else
        st' = exerciseAfterClose c6State "XYZ" c6Position 100 "2026-01-16" "CALL" 7 ∧
        st'.orders = setKey c6State.orders c6State.nextId
          (synthCloseOrder "XYZ" c6Position 100 "2026-01-16" "CALL" 7))) :=
  ⟨rfl, by decide, by decide,
    C6_exercise_settlement c6State "XYZ" c6Position 105 100 "CALL" "2026-01-16" 7
      rfl rfl rfl rfl (by decide) (by decide)⟩

/-- Witness for C10: the same long CALL settlement; the stock leg is a BUY of
200 shares at the strike. -/
theorem C10_witness :
    itmB (isCallType "CALL") 105 100 = true ∧
    (∃ (soid : Key) (stockOrd : Order) (nid : Key),
      processExercise c6State "XYZ" c6Position 105 7
        = some (processFillInternal
            (PMState.mk
              (setKey
                (exerciseAfterClose c6State "XYZ" c6Position 100 "2026-01-16" "CALL" 7).orders
                soid stockOrd)
              (exerciseAfterClose c6State "XYZ" c6Position 100 "2026-01-16" "CALL" 7).positions
              nid)
            soid (|c6Position.quantity| * 100) 100) ∧
      stockOrd.instrument_type = "STOCK" ∧
      stockOrd.quantity = |c6Position.quantity| * 100 ∧
      stockOrd.position_id
        = (findMatchingPositionInternal
            (exerciseAfterClose c6State "XYZ" c6Position 100 "2026-01-16" "CALL" 7).positions
            "XYZ" "STOCK" c6Position.strategy_id none none none).getD
            (exerciseAfterClose c6State "XYZ" c6Position 100 "2026-01-16" "CALL" 7).nextId ∧
      (stockOrd.action = Action.BUY ↔ isCallType "CALL" = decide (0 < c6Position.quantity))) :=
  ⟨by decide,
    C10_stock_leg_direction c6State "XYZ" c6Position 105 100 "CALL" "2026-01-16" 7
      rfl rfl rfl (by decide)⟩

end IBTrader
